import Mathlib

/-!
# Verification of the docker-squash Layer Squashing & Metadata Engine

A shallow embedding of the core of `docker_squash/v2_image.py` and
`docker_squash/squash.py`, together with theorems settling the frozen claims
about chain-ID derivation, legacy directory-ID derivation, config/manifest
rewriting, squash planning and error handling.

Conventions used throughout:

* Python `OrderedDict` values read from JSON are modelled as association lists
  `List (String × JValue)` with unique keys; assignment to an existing key
  updates it in place (preserving its position), assignment to a fresh key
  appends it at the end, exactly as in Python.
* SHA-256 (`hashlib.sha256(...).hexdigest()`, an external library call) is
  modelled as an abstract parameter `H : String → String`; the per-file hash
  `_compute_sha256` is likewise a parameter.  All claims are about which
  strings are fed to the hash, never about SHA-256 internals.
* Fallible Python code (`KeyError`, `IndexError`) is modelled with `Option`:
  `none` is an uncaught exception.
* Raised exceptions in the planner are modelled by `PlanError`; each
  constructor corresponds to one `raise` site in the source.
-/

namespace DockerSquash

/-- JSON values as held by `json.load(..., object_pairs_hook=OrderedDict)`:
objects keep their key order. -/
inductive JValue where
  | jNull
  | jBool (b : Bool)
  | jNum (n : Int)
  | jStr (s : String)
  | jArr (xs : List JValue)
  | jObj (fields : List (String × JValue))
deriving Repr

/-- Python truthiness of a JSON value (`if value:`). -/
def jTruthy : JValue → Bool
  | .jNull => false
  | .jBool b => b
  | .jNum n => !(n == 0)
  | .jStr s => !(s == "")
  | .jArr xs => !xs.isEmpty
  | .jObj fs => !fs.isEmpty

/-- `d[k] = v` on an `OrderedDict`: update the existing key in place, else
append the new key at the end. -/
def odSet : List (String × JValue) → String → JValue → List (String × JValue)
  | [], k, v => [(k, v)]
  | (k', w) :: rest, k, v =>
    if k' = k then (k, v) :: rest else (k', w) :: odSet rest k v

/-- `d.pop(k, None)` on an `OrderedDict` (ignoring the returned value). -/
def odPop : List (String × JValue) → String → List (String × JValue)
  | [], _ => []
  | (k', w) :: rest, k => if k' = k then rest else (k', w) :: odPop rest k

/-- `d.get(k)` / `d[k]` lookup on an `OrderedDict`. -/
def odGet : List (String × JValue) → String → Option JValue
  | [], _ => none
  | (k', w) :: rest, k => if k' = k then some w else odGet rest k

/-- Python truthiness of an optional string attribute (`None` and `""` are
falsy). -/
def optTruthy (o : Option String) : Bool := !(o.getD "" == "")

/-- Value of a decimal digit character, if any. -/
def digitVal (c : Char) : Option Nat :=
  if c = '0' then some 0 else if c = '1' then some 1 else if c = '2' then some 2
  else if c = '3' then some 3 else if c = '4' then some 4 else if c = '5' then some 5
  else if c = '6' then some 6 else if c = '7' then some 7 else if c = '8' then some 8
  else if c = '9' then some 9 else none

/-- Accumulate the value of a nonempty digit string; `none` on a non-digit or
on an empty string. -/
def digitsVal : List Char → Option Nat → Option Nat
  | [], acc => acc
  | c :: cs, acc =>
    match digitVal c with
    | some d => digitsVal cs (some ((acc.getD 0) * 10 + d))
    | none => none

/-- Model of Python `int(s)` for strings: optional surrounding spaces, an
optional sign, then decimal digits; `none` models `ValueError`. -/
def pyParseInt (s : String) : Option Int :=
  let cs := s.toList.dropWhile (fun c => c = ' ')
  let cs := (cs.reverse.dropWhile (fun c => c = ' ')).reverse
  match cs with
  | '-' :: rest => (digitsVal rest none).map (fun n => -(n : Int))
  | '+' :: rest => (digitsVal rest none).map (fun n => (n : Int))
  | rest => (digitsVal rest none).map (fun n => (n : Int))

/-- `s.startswith(p)` (Python), computed on character lists. -/
def strStartsWith (s p : String) : Bool := p.toList.isPrefixOf s.toList

/-! ## Identifier Engine: chain IDs (`_generate_chain_id`, `_generate_chain_ids`)

The recursive helper `_generate_chain_id(chain_ids, diff_ids, parent)` appends
`parent` to the accumulator and, while diff IDs remain, folds
`sha256("sha256:<parent> sha256:<d>")` over them.  The wrapper calls it with
`parent = None`, which immediately dereferences `diff_ids[0]` — an
`IndexError` when the diff-ID list is empty, modelled below by `Option`. -/

/-- The accumulator produced by `_generate_chain_id` once the first diff ID has
been consumed as the initial parent. -/
def chainFrom (H : String → String) (parent : String) : List String → List String
  | [] => [parent]
  | d :: rest => parent :: chainFrom H (H ("sha256:" ++ parent ++ " sha256:" ++ d)) rest

/-- `_generate_chain_ids(diff_ids)`.  `none` models the `IndexError` raised on
an empty diff-ID list (`diff_ids[0]` before any emptiness check). -/
def generateChainIds (H : String → String) : List String → Option (List String)
  | [] => none
  | d :: rest => some (chainFrom H d rest)

/-- The chain recomputed independently from a diff-ID list by the documented
rule: `chain[0] = diff[0]`,
`chain[i] = SHA-256("sha256:" + chain[i-1] + " sha256:" + diff[i])`.
Written by recursion on the index, unlike the engine's list recursion. -/
def chainAt (H : String → String) (d : List String) : Nat → String
  | 0 => (d[0]?).getD ""
  | i + 1 => H ("sha256:" ++ chainAt H d i ++ " sha256:" ++ (d[i + 1]?).getD "")

/-- The full independently recomputed chain, one entry per diff ID. -/
def chainIdSpec (H : String → String) (d : List String) : List String :=
  (List.range d.length).map (chainAt H d)

theorem chainFrom_length (H : String → String) (ds : List String) :
    ∀ p, (chainFrom H p ds).length = ds.length + 1 := by
  induction ds with
  | nil => intro p; rfl
  | cons d rest ih => intro p; simp [chainFrom, ih]

theorem chainFrom_zero (H : String → String) (ds : List String) (p : String) :
    (chainFrom H p ds)[0]? = some p := by
  cases ds <;> simp [chainFrom]

theorem chainFrom_succ (H : String → String) (ds : List String) :
    ∀ p i, i < ds.length →
      (chainFrom H p ds)[i + 1]? =
        some (H ("sha256:" ++ ((chainFrom H p ds)[i]?).getD "" ++
          " sha256:" ++ (ds[i]?).getD "")) := by
  induction ds with
  | nil => intro p i h; exact absurd h (by simp)
  | cons d rest ih =>
    intro p i h
    cases i with
    | zero =>
      simp only [chainFrom, List.getElem?_cons_succ, List.getElem?_cons_zero]
      rw [chainFrom_zero]
      rfl
    | succ j =>
      simp only [chainFrom, List.getElem?_cons_succ]
      exact ih _ j (by simpa using h)

theorem chainFrom_getElem_spec (H : String → String) (d0 : String) (ds : List String) :
    ∀ i, i < ds.length + 1 →
      (chainFrom H d0 ds)[i]? = some (chainAt H (d0 :: ds) i) := by
  intro i
  induction i with
  | zero => intro _; rw [chainFrom_zero]; simp [chainAt]
  | succ j ih =>
    intro h
    have hj : j < ds.length := by omega
    rw [chainFrom_succ H ds d0 j hj, ih (by omega)]
    simp [chainAt]

theorem chainIds_eq_spec (H : String → String) (d0 : String) (ds : List String) :
    chainFrom H d0 ds = chainIdSpec H (d0 :: ds) := by
  apply List.ext_getElem?
  intro i
  by_cases h : i < ds.length + 1
  · rw [chainFrom_getElem_spec H d0 ds i h]
    simp [chainIdSpec, List.getElem?_map, List.getElem?_range h]
  · have h1 : (chainFrom H d0 ds).length ≤ i := by
      rw [chainFrom_length]; omega
    have h2 : (chainIdSpec H (d0 :: ds)).length ≤ i := by
      simp only [chainIdSpec, List.length_map, List.length_range, List.length_cons]
      omega
    rw [List.getElem?_eq_none h1, List.getElem?_eq_none h2]

/-- Claim C1 (confirmed): for every non-empty diff-ID list `d`,
`_generate_chain_ids` returns a chain-ID list `c` of the same length with
`c[0] = d[0]` and `c[i] = SHA-256("sha256:" + c[i-1] + " sha256:" + d[i])` for
`0 < i < n`; the chain recomputed independently from the diff IDs by this rule
(`chainIdSpec`) equals the engine's own derived chain, entry for entry. -/
theorem chain_ids_correct (H : String → String) (d : List String) (hd : d ≠ []) :
    ∃ cs, generateChainIds H d = some cs ∧
      cs.length = d.length ∧
      cs[0]? = d[0]? ∧
      (∀ i, 0 < i → i < d.length →
        cs[i]? = some (H ("sha256:" ++ (cs[i - 1]?).getD "" ++
          " sha256:" ++ (d[i]?).getD ""))) ∧
      cs = chainIdSpec H d := by
  match d, hd with
  | d0 :: ds, _ =>
    refine ⟨chainFrom H d0 ds, rfl, ?_, ?_, ?_, chainIds_eq_spec H d0 ds⟩
    · rw [chainFrom_length]; rfl
    · rw [chainFrom_zero]; simp
    · intro i hpos hlt
      match i, hpos with
      | j + 1, _ =>
        have hj : j < ds.length := by simpa using hlt
        rw [chainFrom_succ H ds d0 j hj]
        simp

/-- Witness for C1 at the concrete diff-ID list `["a", "b"]` with a concrete
stand-in hash. -/
theorem chain_ids_correct_witness :
    ∃ cs, generateChainIds (fun s => "h(" ++ s ++ ")") ["a", "b"] = some cs ∧
      cs.length = 2 ∧
      cs[0]? = some "a" ∧
      (∀ i, 0 < i → i < 2 →
        cs[i]? = some ("h(" ++ ("sha256:" ++ (cs[i - 1]?).getD "" ++
          " sha256:" ++ ((["a", "b"] : List String)[i]?).getD "") ++ ")")) ∧
      cs = chainIdSpec (fun s => "h(" ++ s ++ ")") ["a", "b"] := by
  simpa using chain_ids_correct (fun s => "h(" ++ s ++ ")") ["a", "b"] (by simp)

/-! ## Squash Planner (`_setup_tar_layer_processing`, `_validate_number_of_layers`)

Each `PlanError` constructor corresponds to one `raise` site in the source.
The spec's error taxonomy names the first two `InvalidLayerCountError` and
`BoundaryNotFoundError`; the `docker_squash.errors` module itself is not part
of the analysed sources, so error identity is modelled by raise site.  Only
`squashUnnecessary` (`SquashUnnecessaryError`, imported by name in the source)
is a distinct exception class from the generic `SquashError`. -/

inductive PlanError where
  /-- `_validate_number_of_layers`: count `≤ 0` or count greater than the
  number of layers (the spec's `InvalidLayerCountError`). -/
  | invalidLayerCount (n : Int)
  /-- `_setup_tar_layer_processing`: the boundary identifier is not in the
  layer list (the spec's `BoundaryNotFoundError`). -/
  | boundaryNotFound (ident : String)
  /-- `_setup_tar_layer_processing`: `len(layers_to_squash) < 1`. -/
  | invalidSquashRange (n : Nat)
  /-- `SquashUnnecessaryError`: exactly one layer marked to squash. -/
  | squashUnnecessary
deriving Repr, DecidableEq

/-- `_validate_number_of_layers(number_of_layers)` over an image with `total`
layers: rejects non-positive counts and counts above the layer count. -/
def validateNumberOfLayers (numberOfLayers : Int) (total : Nat) : Except PlanError Unit :=
  if numberOfLayers ≤ 0 then Except.error (PlanError.invalidLayerCount numberOfLayers)
  else if (total : Int) < numberOfLayers then
    Except.error (PlanError.invalidLayerCount numberOfLayers)
  else Except.ok ()

/-- Boundary resolution in `_setup_tar_layer_processing`: a missing boundary
defaults to the full layer count; an integer boundary is used as a count; a
non-integer boundary is looked up in the layer list and resolved to
`len(old_image_layers) - old_image_layers.index(from_layer) - 1`. -/
def resolveBoundary (oldLayers : List String) (fromLayer : Option String) :
    Except PlanError Int :=
  match fromLayer with
  | none => Except.ok (oldLayers.length : Int)
  | some s =>
    match pyParseInt s with
    | some n => Except.ok n
    | none =>
      if oldLayers.contains s then
        Except.ok ((oldLayers.length : Int) - (oldLayers.indexOf s : Int) - 1)
      else Except.error (PlanError.boundaryNotFound s)

/-- The planning part of `_setup_tar_layer_processing`: resolve the boundary,
validate the count, split the layer list at `total - count` into the squash
suffix and the move prefix, and signal the one-layer no-op condition.  Returns
`(layers_to_squash, layers_to_move)`. -/
def setupTarLayerProcessing (oldLayers : List String) (fromLayer : Option String) :
    Except PlanError (List String × List String) := do
  let n ← resolveBoundary oldLayers fromLayer
  let _ ← validateNumberOfLayers n oldLayers.length
  let marker := oldLayers.length - n.toNat
  let layersToSquash := oldLayers.drop marker
  let layersToMove := oldLayers.take marker
  if layersToSquash.length < 1 then
    Except.error (PlanError.invalidSquashRange layersToSquash.length)
  else if layersToSquash.length = 1 then
    Except.error PlanError.squashUnnecessary
  else Except.ok (layersToSquash, layersToMove)

/-! ## Layer Normalizer (`_build_layer_list_from_tar`) -/

/-- The placeholder identifier emitted for an `empty_layer` history entry. -/
def virtualLayerId (i : Nat) : String := "<missing-" ++ toString i ++ ">"

/-- The shared walk of both format branches of `_build_layer_list_from_tar`:
`i` is the history position, `mIdx` the running manifest-layer index.  An
empty history entry emits a placeholder; a non-empty entry consumes the next
manifest identifier if one remains, and is otherwise dropped with a logged
warning. -/
def buildLayerGo (manifestIds : List String) : Nat → Nat → List Bool → List String
  | _, _, [] => []
  | i, mIdx, isEmpty :: rest =>
    if isEmpty then
      virtualLayerId i :: buildLayerGo manifestIds (i + 1) mIdx rest
    else
      match manifestIds[mIdx]? with
      | some lid => lid :: buildLayerGo manifestIds (i + 1) (mIdx + 1) rest
      | none => buildLayerGo manifestIds (i + 1) mIdx rest

/-- The Docker-format manifest entry transformation
`"sha256:" + layer_path.split("/")[0]`. -/
def dockerLayerIdOfPath (p : String) : String :=
  "sha256:" ++ String.mk (p.toList.takeWhile (fun ch => ch ≠ '/'))

/-- `_build_layer_list_from_tar`: the OCI branch consumes manifest digests
as-is, the Docker branch first maps each manifest layer path through
`dockerLayerIdOfPath`; `history` is abstracted to its `empty_layer` flags. -/
def buildLayerListFromTar (oci : Bool) (historyEmpties : List Bool)
    (manifestEntries : List String) : List String :=
  let manifestIds := if oci then manifestEntries else manifestEntries.map dockerLayerIdOfPath
  buildLayerGo manifestIds 0 0 historyEmpties

/-- The normalizer as the claim describes it: walk the position-annotated
history oldest to newest, emit a placeholder at every empty position, consume
the next manifest reference at every non-empty position, and drop (only) the
non-empty positions for which the manifest references have run out. -/
def specLayerWalk : List (Nat × Bool) → List String → List String
  | [], _ => []
  | (i, true) :: rest, ms => virtualLayerId i :: specLayerWalk rest ms
  | (_, false) :: rest, [] => specLayerWalk rest []
  | (_, false) :: rest, m :: ms => m :: specLayerWalk rest ms

/-! ## Layer paths (`_read_layer_paths`, tar-input branch) and diff IDs -/

/-- The tar-input branch of `_read_layer_paths`: walk the normalized layer
list with its index, skip virtual `<missing-…>` layers, and route each real
layer to the move list when `len(layers_to_move) > i`, else to the squash
list.  Returns `(layer_paths_to_squash, layer_paths_to_move)`. -/
def readLayerPathsTarGo (layersToMoveCount : Nat) :
    Nat → List String → List String × List String
  | _, [] => ([], [])
  | i, layerId :: rest =>
    if strStartsWith layerId "<missing-" then
      readLayerPathsTarGo layersToMoveCount (i + 1) rest
    else if i < layersToMoveCount then
      let (sq, mv) := readLayerPathsTarGo layersToMoveCount (i + 1) rest
      (sq, layerId :: mv)
    else
      let (sq, mv) := readLayerPathsTarGo layersToMoveCount (i + 1) rest
      (layerId :: sq, mv)

/-- `_read_layer_paths` for tar input (only the length of `layers_to_move` is
consulted by the source). -/
def readLayerPathsTar (oldLayers : List String) (layersToMoveCount : Nat) :
    List String × List String :=
  readLayerPathsTarGo layersToMoveCount 0 oldLayers

/-- `_generate_diff_ids`: one `_compute_sha256` per moved layer path (the
per-file hash is the abstract `hashOfLayerTar`), plus the hash of the squashed
`layer.tar` exactly when there are layer paths to squash. -/
def generateDiffIds (hashOfLayerTar : String → String) (squashedTarHash : String)
    (pathsToMove pathsToSquash : List String) : List String :=
  let moved := pathsToMove.map hashOfLayerTar
  if pathsToSquash.isEmpty then moved else moved ++ [squashedTarHash]

/-- `_before_squashing`: `squash_id` is the last moved layer path when one
exists (the base-class initial value is `None`). -/
def squashIdOf (pathsToMove : List String) : Option String := pathsToMove.getLast?

/-- The planning state reached by `_before_squashing` on tar input. -/
structure TarPlan where
  layersToSquash : List String
  layersToMove : List String
  pathsToSquash : List String
  pathsToMove : List String
deriving Repr, DecidableEq

/-- The tar-input pipeline from raw metadata to the planning state:
`_build_layer_list_from_tar`, then `_setup_tar_layer_processing`, then
`_read_layer_paths`. -/
def planTarImage (oci : Bool) (historyEmpties : List Bool)
    (manifestEntries : List String) (fromLayer : Option String) :
    Except PlanError TarPlan := do
  let oldLayers := buildLayerListFromTar oci historyEmpties manifestEntries
  let (sq, mv) ← setupTarLayerProcessing oldLayers fromLayer
  let (psq, pmv) := readLayerPathsTar oldLayers mv.length
  pure ⟨sq, mv, psq, pmv⟩

/-! ## Metadata Rewriter -/

/-- Modelled from the spec: `_dump_json` (base `Image` class, not among the
analysed sources) re-serializes with deterministic key ordering and returns the
serialized text together with the SHA-256 hex digest of its bytes.  The
serializer `ser` and hash `H` are abstract parameters. -/
def dumpJson (ser : JValue → String) (H : String → String) (v : JValue) :
    String × String :=
  (ser v, H (ser v))

/-- `_generate_manifest_metadata(image_id, image_name, image_tag,
old_image_manifest, layer_paths_to_move, layer_path_id)`: a fresh ordered dict
with `Config`, optionally `RepoTags`, and `Layers` equal to the old manifest's
layer references truncated to the moved-path count, extended by
`<layer_path_id>/layer.tar` when `layer_path_id` is truthy.  The function
returns the singleton list `[manifest]`. -/
def generateManifestMetadata (imageId : String) (imageName imageTag : Option String)
    (oldManifestLayers : List String) (pathsToMove : List String)
    (layerPathId : Option String) : List (List (String × JValue)) :=
  let m : List (String × JValue) := [("Config", JValue.jStr (imageId ++ ".json"))]
  let m := if optTruthy imageName && optTruthy imageTag then
      m ++ [("RepoTags", JValue.jArr
        [JValue.jStr (imageName.getD "" ++ ":" ++ imageTag.getD "")])]
    else m
  let layers := oldManifestLayers.take pathsToMove.length
  let lp := layerPathId.getD ""
  let layers := if lp = "" then layers else layers ++ [lp ++ "/layer.tar"]
  let m := m ++ [("Layers", JValue.jArr (layers.map JValue.jStr))]
  [m]

/-- The `Layers` entry count of a generated manifest (for the layer-count
law). -/
def manifestLayerCount (manifest : List (List (String × JValue))) : Nat :=
  match manifest with
  | [] => 0
  | m :: _ =>
    match odGet m "Layers" with
    | some (JValue.jArr xs) => xs.length
    | _ => 0

/-- `_generate_image_metadata`: rewrite the old image config.  `none` models an
uncaught `KeyError`/`IndexError` (missing `history`, `rootfs`, `rootfs.diff_ids`
or `config` key, or `diff_ids[-1]` on an empty diff-ID list). -/
def generateImageMetadata (oldConfig : List (String × JValue)) (date comment : String)
    (layersToMoveCount : Nat) (pathsToMove pathsToSquash diffIds : List String) :
    Option (List (String × JValue)) :=
  let m := odSet oldConfig "created" (JValue.jStr date)
  let m := odPop m "container"
  match odGet m "history" with
  | some (JValue.jArr hist) =>
    let truncHist := hist.take layersToMoveCount
    let m := odSet m "history" (JValue.jArr truncHist)
    match odGet m "rootfs" with
    | some (JValue.jObj rfs) =>
      match odGet rfs "diff_ids" with
      | some (JValue.jArr dids) =>
        let truncDids := dids.take pathsToMove.length
        if pathsToSquash.isEmpty then
          let m := odSet m "rootfs"
            (JValue.jObj (odSet rfs "diff_ids" (JValue.jArr truncDids)))
          let entry := JValue.jObj [("comment", JValue.jStr comment),
            ("created", JValue.jStr date), ("empty_layer", JValue.jBool true)]
          let m := odSet m "history" (JValue.jArr (truncHist ++ [entry]))
          match odGet m "config" with
          | some (JValue.jObj cfg) =>
            some (odSet m "config" (JValue.jObj (odSet cfg "Image"
              (JValue.jStr ((squashIdOf pathsToMove).getD "")))))
          | _ => none
        else
          match diffIds.getLast? with
          | some dl =>
            let m := odSet m "rootfs" (JValue.jObj (odSet rfs "diff_ids"
              (JValue.jArr (truncDids ++ [JValue.jStr ("sha256:" ++ dl)]))))
            let entry := JValue.jObj [("comment", JValue.jStr comment),
              ("created", JValue.jStr date)]
            let m := odSet m "history" (JValue.jArr (truncHist ++ [entry]))
            match odGet m "config" with
            | some (JValue.jObj cfg) =>
              some (odSet m "config" (JValue.jObj (odSet cfg "Image"
                (JValue.jStr ((squashIdOf pathsToMove).getD "")))))
            | _ => none
          | none => none
      | _ => none
    | _ => none
  | _ => none

/-- The rewritten config as claim C3 words it, with the history truncation
count and the diff-ID truncation count taken as separate parameters (the claim
as stated uses one "moved-layer count" for both; the code uses
`len(layers_to_move)` for history but `len(layer_paths_to_move)` for
`rootfs.diff_ids`). -/
def claimImageMetadata (histCount didCount : Nat) (oldConfig : List (String × JValue))
    (date comment : String) (pathsToMove pathsToSquash diffIds : List String) :
    List (String × JValue) :=
  let m := odSet oldConfig "created" (JValue.jStr date)
  let m := odPop m "container"
  let hist := match odGet m "history" with
    | some (JValue.jArr h) => h
    | _ => []
  let entry := if pathsToSquash.isEmpty then
      JValue.jObj [("comment", JValue.jStr comment), ("created", JValue.jStr date),
        ("empty_layer", JValue.jBool true)]
    else
      JValue.jObj [("comment", JValue.jStr comment), ("created", JValue.jStr date)]
  let m := odSet m "history" (JValue.jArr (hist.take histCount ++ [entry]))
  let rfs := match odGet m "rootfs" with
    | some (JValue.jObj fs) => fs
    | _ => []
  let dids := match odGet rfs "diff_ids" with
    | some (JValue.jArr ds) => ds
    | _ => []
  let newDids := dids.take didCount ++
    (if pathsToSquash.isEmpty then []
     else [JValue.jStr ("sha256:" ++ (diffIds.getLast?).getD "")])
  let m := odSet m "rootfs" (JValue.jObj (odSet rfs "diff_ids" (JValue.jArr newDids)))
  let cfg := match odGet m "config" with
    | some (JValue.jObj fs) => fs
    | _ => []
  odSet m "config" (JValue.jObj (odSet cfg "Image"
    (JValue.jStr ((pathsToMove.getLast?).getD ""))))

/-! ## Identifier Engine: legacy directory ID
(`_generate_squashed_layer_path_id`) -/

/-- `_generate_squashed_layer_path_id`: mutate a copy of the old image config
(set `created`; drop `history`, `rootfs`, `container`; move `os` behind a newly
appended `layer_id`; append `parent` when layers are moved; point the embedded
run-config's `Image` at `squash_id`) and return the second component of
`_dump_json` on the result.  `none` models an uncaught `IndexError`/`KeyError`
(`chain_ids[-1]` on an empty chain, or a missing/non-object `config` key). -/
def generateSquashedLayerPathId (ser : JValue → String) (H : String → String)
    (oldConfig : List (String × JValue)) (date : String) (chainIds : List String)
    (pathsToMove pathsToSquash : List String) : Option String :=
  let m := odSet oldConfig "created" (JValue.jStr date)
  let m := odPop (odPop (odPop m "history") "rootfs") "container"
  let os := odGet m "os"
  let m := odPop m "os"
  match chainIds.getLast? with
  | none => none
  | some lastChain =>
    let m := odSet m "layer_id" (JValue.jStr ("sha256:" ++ lastChain))
    let m := match os with
      | some v => if jTruthy v then odSet m "os" v else m
      | none => m
    let m := match pathsToMove with
      | [] => m
      | p :: ps =>
        let parent := if pathsToSquash.isEmpty then p
          else (p :: ps).getLast (List.cons_ne_nil p ps)
        odSet m "parent" (JValue.jStr ("sha256:" ++ parent))
    match odGet m "config" with
    | some (JValue.jObj cfg) =>
      let cfg := odSet cfg "Image" (JValue.jStr ((squashIdOf pathsToMove).getD ""))
      let m := odSet m "config" (JValue.jObj cfg)
      some (dumpJson ser H (JValue.jObj m)).2
    | _ => none

/-- The reduced legacy config as claim C2 words it: remove `history`, `rootfs`
and `container`; set `created` to the squash timestamp; set `layer_id` to
`"sha256:" + chain[last]` with `os` removed beforehand and re-inserted
immediately after `layer_id`; set `parent` to `"sha256:" + last moved layer`
only when moved layers exist; set the embedded run-config's `Image` to the
boundary layer's identifier or `""` when squashing from the root. -/
def claimLegacyConfig (oldConfig : List (String × JValue)) (date : String)
    (chainIds : List String) (pathsToMove : List String) : List (String × JValue) :=
  let m := odPop (odPop (odPop oldConfig "history") "rootfs") "container"
  let m := odSet m "created" (JValue.jStr date)
  let os := odGet m "os"
  let m := odPop m "os"
  let m := odSet m "layer_id" (JValue.jStr ("sha256:" ++ (chainIds.getLast?).getD ""))
  let m := match os with
    | some v => odSet m "os" v
    | none => m
  let m := match pathsToMove.getLast? with
    | some lastMoved => odSet m "parent" (JValue.jStr ("sha256:" ++ lastMoved))
    | none => m
  let cfg := match odGet m "config" with
    | some (JValue.jObj fs) => fs
    | _ => []
  odSet m "config" (JValue.jObj (odSet cfg "Image"
    (JValue.jStr ((pathsToMove.getLast?).getD ""))))

/-! ## `Squash.run` error propagation (`squash.py`) -/

/-- `Squash.__init__`: development mode is active exactly when a (truthy)
`tmp_dir` was supplied. -/
def devModeFromTmpDir (tmpDir : Option String) : Bool := !(tmpDir.getD "" == "")

/-- The `try/except` around `self.squash(image)` in `Squash.run`: on an
exception, call `image.cleanup()` (removal of the temporary working directory,
a base-class method outside the analysed sources) unless development mode is
active, then re-raise the original exception by a bare `raise`.  The boolean
records whether the handler called `image.cleanup()`. -/
def runGuard {ε α : Type} (development : Bool) (squashResult : Except ε α) :
    Except ε α × Bool :=
  match squashResult with
  | Except.ok a => (Except.ok a, false)
  | Except.error e => (Except.error e, !development)

/-! ## Planner theorems -/

/-- Claim C6 (confirmed): validation fails with the validation error of
`_validate_number_of_layers` exactly when the count is `≤ 0` or exceeds the
layer count, this failure propagates out of the (pure) planner before any
split is computed, and every count with `0 < k ≤ N` is accepted without
raising.  The spec names this failure `InvalidLayerCountError`; the errors
module is outside the analysed sources and the raise site is in
`_validate_number_of_layers`. -/
theorem validate_number_of_layers_correct (n : Int) (total : Nat) :
    (validateNumberOfLayers n total = Except.error (PlanError.invalidLayerCount n) ↔
      (n ≤ 0 ∨ (total : Int) < n)) ∧
    (0 < n → n ≤ (total : Int) → validateNumberOfLayers n total = Except.ok ()) ∧
    (∀ (oldLayers : List String) (s : String),
      oldLayers.length = total → pyParseInt s = some n →
      (n ≤ 0 ∨ (total : Int) < n) →
      setupTarLayerProcessing oldLayers (some s) =
        Except.error (PlanError.invalidLayerCount n)) := by
  refine ⟨?_, ?_, ?_⟩
  · unfold validateNumberOfLayers
    split_ifs with h1 h2 <;> simp <;> omega
  · intro h1 h2
    unfold validateNumberOfLayers
    split_ifs with g1 g2
    · omega
    · omega
    · rfl
  · intro oldLayers s hlen hp hbad
    subst hlen
    have hval : validateNumberOfLayers n oldLayers.length =
        Except.error (PlanError.invalidLayerCount n) := by
      unfold validateNumberOfLayers
      split_ifs with g1 g2
      · rfl
      · rfl
      · omega
    simp [setupTarLayerProcessing, resolveBoundary, hp, hval, Bind.bind, Except.bind]

/-- Witness for C6 at `n = 0, total = 3` (rejection) and `n = 2, total = 3`
(acceptance), with the planner run on a concrete three-layer image. -/
theorem validate_number_of_layers_correct_witness :
    validateNumberOfLayers 0 3 = Except.error (PlanError.invalidLayerCount 0) ∧
    validateNumberOfLayers 2 3 = Except.ok () ∧
    setupTarLayerProcessing ["x", "y", "z"] (some "4") =
      Except.error (PlanError.invalidLayerCount 4) := by
  refine ⟨?_, ?_, ?_⟩
  · exact (validate_number_of_layers_correct 0 3).1.2 (by omega)
  · exact (validate_number_of_layers_correct 2 3).2.1 (by omega) (by omega)
  · exact (validate_number_of_layers_correct 4 3).2.2 ["x", "y", "z"] "4" rfl
      (by decide) (by omega)

/-- Helper: a resolved count `2 ≤ n ≤ N` always lets the planner complete,
splitting at `N - n`. -/
theorem setupTar_ok_of_resolve (oldLayers : List String) (fromLayer : Option String)
    (n : Int) (hres : resolveBoundary oldLayers fromLayer = Except.ok n)
    (h2 : 2 ≤ n) (hle : n ≤ (oldLayers.length : Int)) :
    setupTarLayerProcessing oldLayers fromLayer =
      Except.ok (oldLayers.drop (oldLayers.length - n.toNat),
        oldLayers.take (oldLayers.length - n.toNat)) := by
  have hval : validateNumberOfLayers n oldLayers.length = Except.ok () := by
    unfold validateNumberOfLayers
    split_ifs with g1 g2 <;> first | omega | rfl
  have hne0 : ¬ oldLayers.length - (oldLayers.length - n.toNat) = 0 := by omega
  have hne1 : ¬ oldLayers.length - (oldLayers.length - n.toNat) = 1 := by omega
  simp [setupTarLayerProcessing, hres, hval, Bind.bind, Except.bind, hne0, hne1]

/-- Claim C5 (confirmed): a boundary resolving to a squash range of exactly
one layer over `N ≥ 1` layers makes the planner raise the distinct
`SquashUnnecessaryError` no-op signal (a constructor of its own, not a generic
error), while every boundary resolving to a valid count `k ≥ 2` lets planning
complete without raising, with a squash suffix of exactly `k` layers. -/
theorem single_layer_squash_noop (oldLayers : List String) (fromLayer : Option String) :
    (resolveBoundary oldLayers fromLayer = Except.ok 1 → 1 ≤ oldLayers.length →
      setupTarLayerProcessing oldLayers fromLayer =
        Except.error PlanError.squashUnnecessary) ∧
    (∀ n : Int, resolveBoundary oldLayers fromLayer = Except.ok n → 2 ≤ n →
      n ≤ (oldLayers.length : Int) →
      setupTarLayerProcessing oldLayers fromLayer =
        Except.ok (oldLayers.drop (oldLayers.length - n.toNat),
          oldLayers.take (oldLayers.length - n.toNat))) := by
  constructor
  · intro hres hlen
    have hval : validateNumberOfLayers 1 oldLayers.length = Except.ok () := by
      unfold validateNumberOfLayers
      split_ifs with g1 g2 <;> first | omega | rfl
    have hdl : oldLayers.length - (oldLayers.length - 1) = 1 := by
      omega
    simp [setupTarLayerProcessing, hres, hval, Bind.bind, Except.bind, hdl]
  · intro n hres h2 hle
    exact setupTar_ok_of_resolve oldLayers fromLayer n hres h2 hle

/-- Witness for C5: a three-layer image with boundary `"1"` yields the no-op
signal; boundary `"2"` yields a completed plan. -/
theorem single_layer_squash_noop_witness :
    setupTarLayerProcessing ["x", "y", "z"] (some "1") =
      Except.error PlanError.squashUnnecessary ∧
    setupTarLayerProcessing ["x", "y", "z"] (some "2") =
      Except.ok (["y", "z"], ["x"]) := by
  constructor
  · exact (single_layer_squash_noop ["x", "y", "z"] (some "1")).1 rfl (by simp)
  · exact (single_layer_squash_noop ["x", "y", "z"] (some "2")).2 2 rfl
      (by omega) (by simp)

/-- Claim C7 (confirmed): a boundary that does not parse as an integer and
occurs (first) at index `j` of the normalized layer list resolves to the count
`N - j - 1`; when that count passes the later checks the plan's move prefix is
exactly the first `j + 1` layers, so the identified layer is the new top of
the move range; an identifier occurring nowhere fails with the
boundary-not-found error (the spec's `BoundaryNotFoundError`). -/
theorem identifier_boundary_resolution (oldLayers : List String) (s : String)
    (hp : pyParseInt s = none) :
    (oldLayers.contains s = true →
      resolveBoundary oldLayers (some s) =
        Except.ok ((oldLayers.length : Int) - (oldLayers.indexOf s : Int) - 1) ∧
      (oldLayers.indexOf s + 2 < oldLayers.length →
        setupTarLayerProcessing oldLayers (some s) =
          Except.ok (oldLayers.drop (oldLayers.indexOf s + 1),
            oldLayers.take (oldLayers.indexOf s + 1)) ∧
        (oldLayers.take (oldLayers.indexOf s + 1)).getLast? = some s)) ∧
    (oldLayers.contains s = false →
      setupTarLayerProcessing oldLayers (some s) =
        Except.error (PlanError.boundaryNotFound s)) := by
  constructor
  · intro hc
    have hmem : s ∈ oldLayers := by simpa using hc
    have hres : resolveBoundary oldLayers (some s) =
        Except.ok ((oldLayers.length : Int) - (oldLayers.indexOf s : Int) - 1) := by
      simp [resolveBoundary, hp, hmem]
    refine ⟨hres, fun hj => ?_⟩
    have hidx : oldLayers.indexOf s < oldLayers.length :=
      List.indexOf_lt_length.2 hmem
    have htn : ((oldLayers.length : Int) - (oldLayers.indexOf s : Int) - 1).toNat =
        oldLayers.length - oldLayers.indexOf s - 1 := by omega
    have hmark : oldLayers.length -
        (oldLayers.length - oldLayers.indexOf s - 1) = oldLayers.indexOf s + 1 := by
      omega
    have h2 := setupTar_ok_of_resolve oldLayers (some s)
      ((oldLayers.length : Int) - (oldLayers.indexOf s : Int) - 1) hres
      (by omega) (by omega)
    rw [htn, hmark] at h2
    refine ⟨h2, ?_⟩
    rw [List.getLast?_eq_getElem?]
    have hlt : oldLayers.indexOf s + 1 ≤ oldLayers.length := by omega
    simp only [List.length_take, Nat.min_eq_left hlt, Nat.add_sub_cancel]
    simp [List.getElem?_take, Nat.lt_succ_self, List.getElem?_indexOf hmem]
  · intro hc
    have hnm : ¬ s ∈ oldLayers := by simpa using hc
    simp [setupTarLayerProcessing, resolveBoundary, hp, hnm, Bind.bind, Except.bind]

/-- Witness for C7: in a three-layer image, identifier `"a"` at index 0
resolves to count 2, the move range tops out at `"a"`, and identifier
`"nope"` fails with the boundary-not-found error. -/
theorem identifier_boundary_resolution_witness :
    resolveBoundary ["a", "b", "c", "d"] (some "a") = Except.ok 3 ∧
    setupTarLayerProcessing ["a", "b", "c", "d"] (some "a") =
      Except.ok (["b", "c", "d"], ["a"]) ∧
    (["a", "b", "c", "d"].take (["a", "b", "c", "d"].indexOf "a" + 1)).getLast? =
      some "a" ∧
    setupTarLayerProcessing ["a", "b", "c", "d"] (some "nope") =
      Except.error (PlanError.boundaryNotFound "nope") := by
  have h := identifier_boundary_resolution ["a", "b", "c", "d"] "a" (by decide)
  have h1 := h.1 (by decide)
  have h2 := h1.2 (by decide)
  have hn := (identifier_boundary_resolution ["a", "b", "c", "d"] "nope"
    (by decide)).2 (by decide)
  exact ⟨by simpa using h1.1, by simpa using h2.1, h2.2, hn⟩

/-! ## Normalizer theorems -/

theorem buildLayerGo_eq_specLayerWalk (manifestIds : List String) :
    ∀ (hist : List Bool) (i k : Nat),
      buildLayerGo manifestIds i k hist =
        specLayerWalk (List.enumFrom i hist) (manifestIds.drop k) := by
  intro hist
  induction hist with
  | nil => intro i k; rfl
  | cons b rest ih =>
    intro i k
    cases b with
    | true => simp [buildLayerGo, specLayerWalk, List.enumFrom, ih]
    | false =>
      cases hm : manifestIds[k]? with
      | some lid =>
        have hk : k < manifestIds.length := by
          by_contra hh
          rw [List.getElem?_eq_none (by omega)] at hm
          exact Option.noConfusion hm
        have hdrop : manifestIds.drop k = lid :: manifestIds.drop (k + 1) := by
          rw [List.drop_eq_getElem_cons hk]
          have hg : manifestIds[k] = lid := by
            have h2 := List.getElem?_eq_getElem hk
            rw [hm] at h2
            exact Option.some.inj h2.symm
          rw [hg]
        simp [buildLayerGo, hm, List.enumFrom, hdrop, specLayerWalk, ih]
      | none =>
        have hk : manifestIds.length ≤ k := by
          by_contra hh
          rw [List.getElem?_eq_getElem (by omega)] at hm
          exact Option.noConfusion hm
        have hdrop : manifestIds.drop k = [] := List.drop_eq_nil_of_le hk
        have hdrop1 : manifestIds.drop (k + 1) = [] :=
          List.drop_eq_nil_of_le (by omega)
        simp [buildLayerGo, hm, List.enumFrom, hdrop, specLayerWalk, ih, hdrop1]

theorem specLayerWalk_length :
    ∀ (pairs : List (Nat × Bool)) (ms : List String),
      (specLayerWalk pairs ms).length =
        (pairs.filter (fun p => p.2)).length +
          min (pairs.filter (fun p => !p.2)).length ms.length := by
  intro pairs
  induction pairs with
  | nil => intro ms; simp [specLayerWalk]
  | cons p rest ih =>
    intro ms
    obtain ⟨i, b⟩ := p
    cases b with
    | true => simp [specLayerWalk, ih]; omega
    | false =>
      cases ms with
      | nil => simp [specLayerWalk, ih]
      | cons m ms' => simp [specLayerWalk, ih]; omega

theorem enumFrom_filter_snd_length (q : Bool → Bool) :
    ∀ (l : List Bool) (n : Nat),
      ((List.enumFrom n l).filter (fun p => q p.2)).length =
        (l.filter q).length := by
  intro l
  induction l with
  | nil => intro n; rfl
  | cons b rest ih =>
    intro n
    cases hq : q b <;> simp [List.enumFrom, List.filter, hq, ih]

/-- Claim C8 (confirmed): `_build_layer_list_from_tar` walks the history
oldest to newest, emits a `<missing-i>` placeholder at every `empty_layer`
position and otherwise consumes the next manifest layer reference in order
(the Docker branch first rewrites each manifest path to
`"sha256:" + path.split("/")[0]`); when non-empty history entries outnumber
manifest layers the extra positions are dropped (warned, non-fatal), so the
output equals the claim-side walk `specLayerWalk` over the position-annotated
history, and it has one entry per history position minus the shortfall. -/
theorem build_layer_list_normalization (oci : Bool) (historyEmpties : List Bool)
    (manifestEntries : List String) :
    buildLayerListFromTar oci historyEmpties manifestEntries =
      specLayerWalk historyEmpties.enum
        (if oci then manifestEntries else manifestEntries.map dockerLayerIdOfPath) ∧
    (buildLayerListFromTar oci historyEmpties manifestEntries).length =
      (historyEmpties.filter (fun b => b)).length +
        min (historyEmpties.filter (fun b => !b)).length
          (if oci then manifestEntries else manifestEntries.map dockerLayerIdOfPath).length := by
  have heq : buildLayerListFromTar oci historyEmpties manifestEntries =
      specLayerWalk historyEmpties.enum
        (if oci then manifestEntries else manifestEntries.map dockerLayerIdOfPath) := by
    unfold buildLayerListFromTar
    rw [buildLayerGo_eq_specLayerWalk]
    rfl
  refine ⟨heq, ?_⟩
  rw [heq, specLayerWalk_length]
  rw [show historyEmpties.enum = List.enumFrom 0 historyEmpties from rfl]
  rw [enumFrom_filter_snd_length (fun b => b), enumFrom_filter_snd_length (fun b => !b)]

/-! ## Chain-ID partiality (claim C10) -/

/-- Claim C10 (confirmed): `_generate_chain_ids` is total exactly on non-empty
diff-ID lists — every call with at least one diff ID returns one chain ID per
diff ID, while the empty list hits `diff_ids[0]` before any emptiness check
(`none`, an `IndexError`); and the tar pipeline can reach such a call: an
image whose history entries are all `empty_layer` (no moved layer paths, every
squash-range layer virtual) passes planning with the default boundary and
yields an empty diff-ID list at line `self.chain_ids =
self._generate_chain_ids(self.diff_ids)`. -/
theorem chain_ids_partiality (H : String → String) (d : List String) (hd : d ≠ []) :
    (∃ cs, generateChainIds H d = some cs ∧ cs.length = d.length) ∧
    generateChainIds H [] = none ∧
    planTarImage false [true, true] [] none =
      Except.ok ⟨[virtualLayerId 0, virtualLayerId 1], [], [], []⟩ ∧
    generateDiffIds (fun s => s) "" [] [] = [] := by
  refine ⟨?_, rfl, rfl, rfl⟩
  match d, hd with
  | d0 :: ds, _ =>
    exact ⟨chainFrom H d0 ds, rfl, by rw [chainFrom_length]; rfl⟩

/-- Witness for C10 at the singleton diff-ID list `["a"]` with the identity
stand-in hash. -/
theorem chain_ids_partiality_witness :
    (∃ cs, generateChainIds (fun s => s) ["a"] = some cs ∧ cs.length = 1) ∧
    generateChainIds (fun s => s) [] = none ∧
    planTarImage false [true, true] [] none =
      Except.ok ⟨[virtualLayerId 0, virtualLayerId 1], [], [], []⟩ ∧
    generateDiffIds (fun s => s) "" [] [] = [] :=
  chain_ids_partiality (fun s => s) ["a"] (by simp)

/-! ## `Squash.run` theorem (claim C9) -/

/-- Claim C9 (confirmed): when `self.squash(image)` raises, `Squash.run`
calls `image.cleanup()` — removal of the temporary working directory —
exactly when development (debug) mode is inactive, and re-raises the original
exception unchanged (a bare `raise`); with no `tmp_dir` supplied, development
mode is off and cleanup always runs before propagation. -/
theorem run_cleanup_on_error {ε α : Type} (tmpDir : Option String) (e : ε) :
    runGuard (α := α) (devModeFromTmpDir tmpDir) (Except.error e) =
      (Except.error e, !devModeFromTmpDir tmpDir) ∧
    (tmpDir = none →
      runGuard (α := α) (devModeFromTmpDir tmpDir) (Except.error e) =
        (Except.error e, true)) := by
  constructor
  · rfl
  · intro h
    subst h
    rfl

/-- Witness for C9 with a concrete error and no `tmp_dir`. -/
theorem run_cleanup_on_error_witness :
    runGuard (α := Unit) (devModeFromTmpDir none) (Except.error "boom") =
      (Except.error "boom", true) :=
  (run_cleanup_on_error none "boom").2 rfl

/-! ## Ordered-dict algebra

Small rewriting laws about `odSet`/`odPop`/`odGet`, used to relate the
source-order mutation sequences to the claim-order ones. -/

theorem odGet_odSet_self (d : List (String × JValue)) (k : String) (v : JValue) :
    odGet (odSet d k v) k = some v := by
  induction d with
  | nil => simp [odSet, odGet]
  | cons p rest ih =>
    obtain ⟨a, x⟩ := p
    by_cases h : a = k <;> simp [odSet, odGet, h, ih]

theorem odGet_odSet_of_ne (d : List (String × JValue)) (k k' : String) (v : JValue)
    (h : k ≠ k') : odGet (odSet d k' v) k = odGet d k := by
  induction d with
  | nil => simp [odSet, odGet, Ne.symm h]
  | cons p rest ih =>
    obtain ⟨a, x⟩ := p
    by_cases ha : a = k'
    · subst ha
      simp [odSet, odGet, Ne.symm h]
    · by_cases hb : a = k
      · subst hb
        simp [odSet, odGet, ha, h]
      · simp [odSet, odGet, ha, hb, ih]

theorem odGet_odPop_of_ne (d : List (String × JValue)) (k k' : String)
    (h : k ≠ k') : odGet (odPop d k') k = odGet d k := by
  induction d with
  | nil => simp [odPop]
  | cons p rest ih =>
    obtain ⟨a, x⟩ := p
    by_cases ha : a = k'
    · subst ha
      simp [odPop, odGet, Ne.symm h]
    · by_cases hb : a = k
      · subst hb
        simp [odPop, odGet, ha]
      · simp [odPop, odGet, ha, hb, ih]

theorem odSet_odSet_self (d : List (String × JValue)) (k : String) (v w : JValue) :
    odSet (odSet d k v) k w = odSet d k w := by
  induction d with
  | nil => simp [odSet]
  | cons p rest ih =>
    obtain ⟨a, x⟩ := p
    by_cases h : a = k <;> simp [odSet, h, ih]

theorem odSet_comm_of_mem (d : List (String × JValue)) (k k' : String) (v w : JValue)
    (h : k ≠ k') (hp : odGet d k' ≠ none) :
    odSet (odSet d k v) k' w = odSet (odSet d k' w) k v := by
  induction d with
  | nil => simp [odGet] at hp
  | cons p rest ih =>
    obtain ⟨a, x⟩ := p
    by_cases ha : a = k
    · subst ha
      simp [odSet, h, Ne.symm h]
    · by_cases hb : a = k'
      · subst hb
        simp [odSet, ha, Ne.symm h, h]
      · have hp' : odGet rest k' ≠ none := by
          simpa [odGet, hb] using hp
        simp [odSet, ha, hb, ih hp']

theorem odSet_odPop_of_ne (d : List (String × JValue)) (k k' : String) (v : JValue)
    (h : k ≠ k') : odSet (odPop d k') k v = odPop (odSet d k v) k' := by
  induction d with
  | nil => simp [odSet, odPop, h]
  | cons p rest ih =>
    obtain ⟨a, x⟩ := p
    by_cases ha : a = k'
    · subst ha
      simp [odSet, odPop, Ne.symm h]
    · by_cases hb : a = k
      · subst hb
        simp [odSet, odPop, ha, h]
      · simp [odSet, odPop, ha, hb, ih]

/-! ## Legacy directory ID theorem (claim C2) -/

/-- Claim C2 (confirmed): the legacy directory ID of the squashed layer is the
SHA-256 hex digest of the deterministically serialized source config after, in
order: removing `history`, `rootfs` and `container`; setting `created` to the
squash timestamp; setting `layer_id` to `"sha256:" + chain[last]` with `os`
removed beforehand and re-inserted immediately after `layer_id`; setting
`parent` to `"sha256:" + <last moved layer>` only when moved layers exist; and
setting the embedded run-config's `Image` to the boundary layer's identifier
(`""` when squashing from the root).  Hypotheses: the chain is non-empty and
a squashed layer exists (both hold at the only call site, inside
`if self.layer_paths_to_squash:` after `_generate_chain_ids`), the source
config carries a run-config object, and its `os` field, when present, is
truthy. -/
theorem squashed_layer_path_id_correct (ser : JValue → String) (H : String → String)
    (oldConfig : List (String × JValue)) (date : String) (chainIds : List String)
    (pathsToMove pathsToSquash : List String)
    (hchain : chainIds ≠ [])
    (hsq : pathsToSquash ≠ [])
    (hcfg : ∃ fs, odGet oldConfig "config" = some (JValue.jObj fs))
    (hos : odGet oldConfig "os" = none ∨
      ∃ v, odGet oldConfig "os" = some v ∧ jTruthy v = true) :
    generateSquashedLayerPathId ser H oldConfig date chainIds pathsToMove pathsToSquash =
      some (H (ser (JValue.jObj
        (claimLegacyConfig oldConfig date chainIds pathsToMove)))) := by
  obtain ⟨fs, hfs⟩ := hcfg
  obtain ⟨lc, hlc⟩ : ∃ lc, chainIds.getLast? = some lc := by
    cases hl : chainIds.getLast? with
    | none => exact absurd (List.getLast?_eq_none_iff.mp hl) hchain
    | some lc => exact ⟨lc, rfl⟩
  have hm2 :
      odSet (odPop (odPop (odPop oldConfig "history") "rootfs") "container")
          "created" (JValue.jStr date) =
        odPop (odPop (odPop (odSet oldConfig "created" (JValue.jStr date))
          "history") "rootfs") "container" := by
    rw [odSet_odPop_of_ne _ _ _ _ (by decide),
        odSet_odPop_of_ne _ _ _ _ (by decide),
        odSet_odPop_of_ne _ _ _ _ (by decide)]
  have hosM2 : odGet (odPop (odPop (odPop (odSet oldConfig "created"
      (JValue.jStr date)) "history") "rootfs") "container") "os" =
      odGet oldConfig "os" := by
    rw [odGet_odPop_of_ne _ _ _ (by decide), odGet_odPop_of_ne _ _ _ (by decide),
        odGet_odPop_of_ne _ _ _ (by decide), odGet_odSet_of_ne _ _ _ _ (by decide)]
  have hsqe : pathsToSquash.isEmpty = false := by
    simpa [List.isEmpty_iff] using hsq
  simp only [generateSquashedLayerPathId, claimLegacyConfig, dumpJson, squashIdOf, hlc,
    Option.getD_some]
  rw [hm2, hosM2]
  cases hos with
  | inl hnone =>
    rw [hnone]
    cases hmv : pathsToMove with
    | nil => simp [odGet_odSet_of_ne, odGet_odPop_of_ne, hfs]
    | cons p ps => simp [odGet_odSet_of_ne, odGet_odPop_of_ne, hfs, hsqe,
        List.getLast?_eq_getLast _ (List.cons_ne_nil p ps)]
  | inr hsome =>
    obtain ⟨v, hv, htr⟩ := hsome
    rw [hv]
    cases hmv : pathsToMove with
    | nil => simp [odGet_odSet_of_ne, odGet_odPop_of_ne, hfs, htr]
    | cons p ps => simp [odGet_odSet_of_ne, odGet_odPop_of_ne, hfs, htr, hsqe,
        List.getLast?_eq_getLast _ (List.cons_ne_nil p ps)]

/-- A small concrete source config used by the C2 witness. -/
def sampleLegacySource : List (String × JValue) :=
  [("created", JValue.jStr "t0"),
   ("config", JValue.jObj [("Image", JValue.jStr "old")]),
   ("history", JValue.jArr []),
   ("os", JValue.jStr "linux"),
   ("rootfs", JValue.jObj [("type", JValue.jStr "layers")]),
   ("container", JValue.jStr "cont")]

/-- Witness for C2 on `sampleLegacySource` with two chain IDs, two moved
paths and one squashed path. -/
theorem squashed_layer_path_id_correct_witness :
    generateSquashedLayerPathId (fun _ => "S") (fun s => "H(" ++ s ++ ")")
      sampleLegacySource "T" ["c1", "c2"] ["m1", "m2"] ["s1"] =
      some ((fun s => "H(" ++ s ++ ")") ((fun _ => "S") (JValue.jObj
        (claimLegacyConfig sampleLegacySource "T" ["c1", "c2"] ["m1", "m2"])))) :=
  squashed_layer_path_id_correct (fun _ => "S") (fun s => "H(" ++ s ++ ")")
    sampleLegacySource "T" ["c1", "c2"] ["m1", "m2"] ["s1"]
    (by simp) (by simp)
    ⟨[("Image", JValue.jStr "old")], rfl⟩
    (Or.inr ⟨JValue.jStr "linux", rfl, rfl⟩)

/-! ## Rewritten image config (claim C3)

The claim as frozen uses a single "moved-layer count" for both truncations;
the source truncates `history` by `len(self.layers_to_move)` (which counts
empty/virtual moved layers) but `rootfs.diff_ids` by
`len(self.layer_paths_to_move)` (which does not).  The two counts differ as
soon as an empty layer sits in the move range, refuting the claim as stated;
the amended statement below carries both counts. -/

/-- Claim C3 (amended, proved): the rewritten config equals the source config
with `created` set, `container` removed, `history` truncated to
`len(layers_to_move)` plus exactly one appended entry (comment, created;
`empty_layer = true` exactly when the squash range produced no content),
`rootfs.diff_ids` truncated to `len(layer_paths_to_move)` — the count of
non-empty moved layers — with the squashed layer's `sha256:`-prefixed diff ID
appended exactly when the range was non-empty, the run-config `Image` pointer
set to the boundary layer's identifier (`""` from the root), and every other
field unchanged. -/
theorem image_metadata_amended (oldConfig : List (String × JValue)) (date comment : String)
    (layersToMoveCount : Nat) (pathsToMove pathsToSquash diffIds : List String)
    (hhist : ∃ hs, odGet oldConfig "history" = some (JValue.jArr hs))
    (hrfs : ∃ rfs ds, odGet oldConfig "rootfs" = some (JValue.jObj rfs) ∧
      odGet rfs "diff_ids" = some (JValue.jArr ds))
    (hcfg : ∃ fs, odGet oldConfig "config" = some (JValue.jObj fs))
    (hdi : pathsToSquash ≠ [] → diffIds ≠ []) :
    generateImageMetadata oldConfig date comment layersToMoveCount
        pathsToMove pathsToSquash diffIds =
      some (claimImageMetadata layersToMoveCount pathsToMove.length oldConfig
        date comment pathsToMove pathsToSquash diffIds) := by
  obtain ⟨hs, hh⟩ := hhist
  obtain ⟨rfs, ds, hr, hds⟩ := hrfs
  obtain ⟨fs, hfs⟩ := hcfg
  have hh2 : odGet (odPop (odSet oldConfig "created" (JValue.jStr date))
      "container") "history" = some (JValue.jArr hs) := by
    rw [odGet_odPop_of_ne _ _ _ (by decide), odGet_odSet_of_ne _ _ _ _ (by decide), hh]
  have hr2 : ∀ T, odGet (odSet (odPop (odSet oldConfig "created" (JValue.jStr date))
      "container") "history" T) "rootfs" = some (JValue.jObj rfs) := by
    intro T
    rw [odGet_odSet_of_ne _ _ _ _ (by decide), odGet_odPop_of_ne _ _ _ (by decide),
      odGet_odSet_of_ne _ _ _ _ (by decide), hr]
  have hc2 : ∀ T X T2, odGet (odSet (odSet (odSet (odPop (odSet oldConfig "created"
      (JValue.jStr date)) "container") "history" T) "rootfs" X) "history" T2)
      "config" = some (JValue.jObj fs) := by
    intro T X T2
    rw [odGet_odSet_of_ne _ _ _ _ (by decide), odGet_odSet_of_ne _ _ _ _ (by decide),
      odGet_odSet_of_ne _ _ _ _ (by decide), odGet_odPop_of_ne _ _ _ (by decide),
      odGet_odSet_of_ne _ _ _ _ (by decide), hfs]
  have hc3 : ∀ T X, odGet (odSet (odSet (odPop (odSet oldConfig "created"
      (JValue.jStr date)) "container") "history" T) "rootfs" X)
      "config" = some (JValue.jObj fs) := by
    intro T X
    rw [odGet_odSet_of_ne _ _ _ _ (by decide), odGet_odSet_of_ne _ _ _ _ (by decide),
      odGet_odPop_of_ne _ _ _ (by decide), odGet_odSet_of_ne _ _ _ _ (by decide), hfs]
  have hswap : ∀ T1 T2 X,
      odSet (odSet (odSet (odPop (odSet oldConfig "created" (JValue.jStr date))
        "container") "history" T1) "rootfs" X) "history" T2 =
      odSet (odSet (odPop (odSet oldConfig "created" (JValue.jStr date))
        "container") "history" T2) "rootfs" X := by
    intro T1 T2 X
    rw [← odSet_comm_of_mem _ _ _ _ _ (by decide) (by rw [hr2 T1]; simp),
      odSet_odSet_self]
  cases hse : pathsToSquash.isEmpty with
  | true =>
    simp only [generateImageMetadata, claimImageMetadata, squashIdOf, hh2, hr2, hds, hse,
      if_true, hc2, hc3]
    rw [hswap]
    simp
  | false =>
    have hpsne : pathsToSquash ≠ [] := by simpa [List.isEmpty_iff] using hse
    obtain ⟨dl, hdl⟩ : ∃ dl, diffIds.getLast? = some dl := by
      cases hl : diffIds.getLast? with
      | none => exact absurd (List.getLast?_eq_none_iff.mp hl) (hdi hpsne)
      | some dl => exact ⟨dl, rfl⟩
    simp only [generateImageMetadata, claimImageMetadata, squashIdOf, hh2, hr2, hds, hse,
      hdl, Bool.false_eq_true, if_false, hc2, hc3, Option.getD_some]
    rw [hswap]

/-- The concrete source config refuting claim C3 as stated: three history
entries, the bottom one an `empty_layer`, and two diff IDs. -/
def imageMetadataCexConfig : List (String × JValue) :=
  [("created", JValue.jStr "t0"),
   ("config", JValue.jObj [("Image", JValue.jStr "old")]),
   ("history", JValue.jArr
     [JValue.jObj [("created", JValue.jStr "h0"), ("empty_layer", JValue.jBool true)],
      JValue.jObj [("created", JValue.jStr "h1")],
      JValue.jObj [("created", JValue.jStr "h2")]]),
   ("os", JValue.jStr "linux"),
   ("rootfs", JValue.jObj [("type", JValue.jStr "layers"),
     ("diff_ids", JValue.jArr [JValue.jStr "sha256:d1", JValue.jStr "sha256:d2"])])]

/-- Counterexample to claim C3 as stated.  Squashing the top 2 of 3 layers of
an image whose bottom layer is empty (a state the tar pipeline reaches, first
two conjuncts: one moved layer, zero moved layer paths, two squashed paths,
one diff ID) produces a config that differs from the claim's prediction under
either reading of "the moved-layer count" (`1 = len(layers_to_move)`: the kept
`diff_ids` differ; `0 = len(layer_paths_to_move)`: the kept history differs). -/
theorem image_metadata_claim_counterexample :
    planTarImage false [true, false, false] ["l1/layer.tar", "l2/layer.tar"]
        (some "2") =
      Except.ok ⟨["sha256:l1", "sha256:l2"], ["<missing-0>"],
        ["sha256:l1", "sha256:l2"], []⟩ ∧
    generateDiffIds (fun _ => "x") "sq" [] ["sha256:l1", "sha256:l2"] = ["sq"] ∧
    generateImageMetadata imageMetadataCexConfig "T" "squashed" 1 []
        ["sha256:l1", "sha256:l2"] ["sq"] ≠
      some (claimImageMetadata 1 1 imageMetadataCexConfig "T" "squashed" []
        ["sha256:l1", "sha256:l2"] ["sq"]) ∧
    generateImageMetadata imageMetadataCexConfig "T" "squashed" 1 []
        ["sha256:l1", "sha256:l2"] ["sq"] ≠
      some (claimImageMetadata 0 0 imageMetadataCexConfig "T" "squashed" []
        ["sha256:l1", "sha256:l2"] ["sq"]) := by
  refine ⟨rfl, rfl, ?_, ?_⟩
  · simp [generateImageMetadata, claimImageMetadata, imageMetadataCexConfig,
      odSet, odPop, odGet, squashIdOf]
  · simp [generateImageMetadata, claimImageMetadata, imageMetadataCexConfig,
      odSet, odPop, odGet, squashIdOf]

/-- Witness for the amended C3 on the concrete config with one (non-empty)
moved layer. -/
theorem image_metadata_amended_witness :
    generateImageMetadata imageMetadataCexConfig "T" "c" 1 ["p"] ["q"] ["d"] =
      some (claimImageMetadata 1 1 imageMetadataCexConfig "T" "c"
        ["p"] ["q"] ["d"]) :=
  image_metadata_amended imageMetadataCexConfig "T" "c" 1 ["p"] ["q"] ["d"]
    ⟨_, rfl⟩ ⟨_, _, rfl, rfl⟩ ⟨_, rfl⟩ (fun _ => by simp)

/-! ## Rewritten manifest (claim C4)

The claim's layer-count law `N - k + 1` counts `N` over all history positions
(the planner's `k` does); the manifest's `Layers` field only ever holds blob
references for non-empty layers, so with an empty layer inside the move range
the rewritten manifest has `len(layer_paths_to_move) + 1 < N - k + 1` entries,
refuting the claim as stated.  The law does hold when every layer is
non-empty, which the amended statement proves. -/

/-- Helper: a Docker-format layer identifier always carries the `sha256:`
prefix and is never a `<missing-…>` placeholder. -/
theorem strStartsWith_sha256_not_missing (r : String) :
    strStartsWith ("sha256:" ++ r) "<missing-" = false := by
  simp [strStartsWith, String.toList, String.data_append, List.isPrefixOf]

/-- Helper: with no empty history positions and exactly one manifest reference
per position, the normalizer walk returns the manifest references unchanged. -/
theorem specLayerWalk_all_nonEmpty :
    ∀ (pairs : List (Nat × Bool)) (ms : List String),
      (∀ p ∈ pairs, p.2 = false) → ms.length = pairs.length →
      specLayerWalk pairs ms = ms := by
  intro pairs
  induction pairs with
  | nil =>
    intro ms _ hlen
    simp only [List.length_nil] at hlen
    rw [List.length_eq_zero] at hlen
    simp [hlen, specLayerWalk]
  | cons p rest ih =>
    intro ms hall hlen
    obtain ⟨i, b⟩ := p
    have hb : b = false := hall (i, b) (by simp)
    subst hb
    cases ms with
    | nil => simp at hlen
    | cons m ms' =>
      simp only [specLayerWalk]
      rw [ih ms' (fun q hq => hall q (by simp [hq])) (by simpa using hlen)]

/-- Helper: on a layer list without virtual placeholders, `_read_layer_paths`
is exactly the split at the move count. -/
theorem readLayerPathsTarGo_no_virtual :
    ∀ (l : List String) (c i : Nat),
      (∀ x ∈ l, strStartsWith x "<missing-" = false) →
      readLayerPathsTarGo c i l = (l.drop (c - i), l.take (c - i)) := by
  intro l
  induction l with
  | nil => intro c i _; simp [readLayerPathsTarGo]
  | cons x rest ih =>
    intro c i hall
    have hx : strStartsWith x "<missing-" = false := hall x (by simp)
    have hrest : ∀ y ∈ rest, strStartsWith y "<missing-" = false :=
      fun y hy => hall y (by simp [hy])
    by_cases hic : i < c
    · have hsub : c - i = (c - (i + 1)) + 1 := by omega
      simp [readLayerPathsTarGo, hx, hic, ih _ _ hrest, hsub]
    · have hc0 : c - i = 0 := by omega
      have hc1 : c - (i + 1) = 0 := by omega
      simp [readLayerPathsTarGo, hx, hic, ih _ _ hrest, hc0, hc1]

/-- Claim C4 (amended, proved): the rewritten manifest's `Config` names
`<new config digest>.json`; `RepoTags` is present exactly when both an image
name and a tag are known (truthy); `Layers` is the old manifest's blob
references truncated to the non-empty moved-layer count followed by exactly
one reference to the new squashed layer (whose directory ID is non-empty);
and for an image whose layers are all non-empty, squashing `1 < k ≤ N` of its
`N` layers yields a plan whose manifest has exactly `N - k + 1` layer entries
(in general: non-empty moved count + 1). -/
theorem manifest_metadata_amended (imageId : String) (imageName imageTag : Option String)
    (oldManifestLayers : List String) (pathsToMove : List String) (lid : String)
    (hlid : lid ≠ "") :
    generateManifestMetadata imageId imageName imageTag oldManifestLayers
        pathsToMove (some lid) =
      [[("Config", JValue.jStr (imageId ++ ".json"))] ++
        (if optTruthy imageName && optTruthy imageTag then
          [("RepoTags", JValue.jArr [JValue.jStr
            (imageName.getD "" ++ ":" ++ imageTag.getD "")])] else []) ++
        [("Layers", JValue.jArr ((oldManifestLayers.take pathsToMove.length).map
            JValue.jStr ++ [JValue.jStr (lid ++ "/layer.tar")]))]] ∧
    (∀ m, generateManifestMetadata imageId imageName imageTag oldManifestLayers
        pathsToMove (some lid) = [m] →
      (odGet m "RepoTags" ≠ none ↔
        (optTruthy imageName = true ∧ optTruthy imageTag = true))) ∧
    (∀ (N : Nat) (entries : List String) (s : String) (k : Int),
      entries.length = N → pyParseInt s = some k → 2 ≤ k → k ≤ (N : Int) →
      ∃ tp, planTarImage false (List.replicate N false) entries (some s) =
          Except.ok tp ∧
        tp.pathsToMove.length = N - k.toNat ∧
        tp.pathsToSquash ≠ [] ∧
        manifestLayerCount (generateManifestMetadata imageId imageName imageTag
          entries tp.pathsToMove (some lid)) = N - k.toNat + 1) := by
  have hstruct : generateManifestMetadata imageId imageName imageTag oldManifestLayers
      pathsToMove (some lid) =
      [[("Config", JValue.jStr (imageId ++ ".json"))] ++
        (if optTruthy imageName && optTruthy imageTag then
          [("RepoTags", JValue.jArr [JValue.jStr
            (imageName.getD "" ++ ":" ++ imageTag.getD "")])] else []) ++
        [("Layers", JValue.jArr ((oldManifestLayers.take pathsToMove.length).map
            JValue.jStr ++ [JValue.jStr (lid ++ "/layer.tar")]))]] := by
    simp only [generateManifestMetadata, Option.getD_some]
    split_ifs with hrt <;> simp [hlid]
  refine ⟨hstruct, ?_, ?_⟩
  · intro m hm
    rw [hstruct] at hm
    have hm2 := List.cons.inj hm
    cases hrt : (optTruthy imageName && optTruthy imageTag) with
    | true =>
      rw [hrt] at hm2
      simp only [if_true] at hm2
      rw [← hm2.1]
      simp only [List.cons_append, List.nil_append, odGet]
      constructor
      · intro _
        simpa using hrt
      · intro _
        simp
    | false =>
      rw [hrt] at hm2
      simp only [Bool.false_eq_true, if_false] at hm2
      rw [← hm2.1]
      simp only [List.cons_append, List.nil_append, odGet]
      constructor
      · intro hcon
        simp at hcon
      · intro hand
        rw [hand.1, hand.2] at hrt
        simp at hrt
  · intro N entries s k hN hk h2 hkN
    have hmape : (entries.map dockerLayerIdOfPath).length = N := by
      simpa using hN
    have hall : ∀ x ∈ entries.map dockerLayerIdOfPath,
        strStartsWith x "<missing-" = false := by
      intro x hx
      obtain ⟨p, hp, hpe⟩ := List.mem_map.mp hx
      rw [← hpe]
      exact strStartsWith_sha256_not_missing _
    have hbuild : buildLayerListFromTar false (List.replicate N false) entries =
        entries.map dockerLayerIdOfPath := by
      unfold buildLayerListFromTar
      rw [buildLayerGo_eq_specLayerWalk]
      simp only [Bool.false_eq_true, if_false, List.drop_zero]
      apply specLayerWalk_all_nonEmpty
      · intro p hp
        have hsnd : p.2 ∈ (List.enumFrom 0 (List.replicate N false)).map Prod.snd :=
          List.mem_map_of_mem Prod.snd hp
        rw [List.enumFrom_map_snd] at hsnd
        exact List.eq_of_mem_replicate hsnd
      · simp [hN]
    have hres2 : resolveBoundary (entries.map dockerLayerIdOfPath) (some s) =
        Except.ok k := by
      simp [resolveBoundary, hk]
    have hsetup := setupTar_ok_of_resolve (entries.map dockerLayerIdOfPath)
      (some s) k hres2 h2 (by rw [hmape]; exact hkN)
    rw [hmape] at hsetup
    have htakelen : ((entries.map dockerLayerIdOfPath).take (N - k.toNat)).length =
        N - k.toNat := by
      rw [List.length_take, hmape]
      omega
    refine ⟨⟨(entries.map dockerLayerIdOfPath).drop (N - k.toNat),
      (entries.map dockerLayerIdOfPath).take (N - k.toNat),
      (entries.map dockerLayerIdOfPath).drop (N - k.toNat),
      (entries.map dockerLayerIdOfPath).take (N - k.toNat)⟩, ?_, ?_, ?_, ?_⟩
    · have hminlen : (N - k.toNat) ⊓ entries.length = N - k.toNat := by omega
      have hread0 : readLayerPathsTar (entries.map dockerLayerIdOfPath) (N - k.toNat) =
          ((entries.map dockerLayerIdOfPath).drop (N - k.toNat),
           (entries.map dockerLayerIdOfPath).take (N - k.toNat)) := by
        unfold readLayerPathsTar
        rw [readLayerPathsTarGo_no_virtual _ _ _ hall]
        simp
      simp [planTarImage, hbuild, hsetup, Bind.bind, Except.bind, pure, Except.pure,
        hminlen, hread0]
    · exact htakelen
    · show (entries.map dockerLayerIdOfPath).drop (N - k.toNat) ≠ []
      have hdl : ((entries.map dockerLayerIdOfPath).drop (N - k.toNat)).length =
          k.toNat := by
        rw [List.length_drop, hmape]
        omega
      intro hnil
      rw [hnil] at hdl
      simp at hdl
      omega
    · show manifestLayerCount (generateManifestMetadata imageId imageName imageTag
          entries ((entries.map dockerLayerIdOfPath).take (N - k.toNat))
          (some lid)) = N - k.toNat + 1
      have hcount : manifestLayerCount (generateManifestMetadata imageId imageName
          imageTag entries ((entries.map dockerLayerIdOfPath).take (N - k.toNat))
          (some lid)) =
          (entries.take ((entries.map dockerLayerIdOfPath).take (N - k.toNat)).length).length
            + 1 := by
        simp only [generateManifestMetadata, Option.getD_some]
        split_ifs with hrt <;>
          simp [manifestLayerCount, odGet, hlid]
      rw [hcount, htakelen, List.length_take, hN]
      omega

/-- Counterexample to claim C4 as stated.  The tar pipeline on a 3-layer image
whose bottom layer is empty, squashing the top `k = 2` layers, produces zero
moved layer paths; the rewritten manifest then has 1 layer entry, not
`N - k + 1 = 2`. -/
theorem manifest_metadata_claim_counterexample :
    planTarImage false [true, false, false] ["l1/layer.tar", "l2/layer.tar"]
        (some "2") =
      Except.ok ⟨["sha256:l1", "sha256:l2"], ["<missing-0>"],
        ["sha256:l1", "sha256:l2"], []⟩ ∧
    manifestLayerCount (generateManifestMetadata "img" none none
      ["l1/layer.tar", "l2/layer.tar"] [] (some "d")) ≠ 3 - 2 + 1 :=
  ⟨rfl, by decide⟩

/-- Witness for the amended C4 at a concrete two-blob manifest with one moved
path, a known name and tag, and squashed-layer directory ID `"d"`. -/
theorem manifest_metadata_amended_witness :
    generateManifestMetadata "img" (some "name") (some "tag") ["a/x", "b/x"]
        ["p"] (some "d") =
      [[("Config", JValue.jStr "img.json"),
        ("RepoTags", JValue.jArr [JValue.jStr "name:tag"]),
        ("Layers", JValue.jArr [JValue.jStr "a/x", JValue.jStr "d/layer.tar"])]] := by
  have h := (manifest_metadata_amended "img" (some "name") (some "tag")
    ["a/x", "b/x"] ["p"] "d" (by decide)).1
  simpa using h

end DockerSquash
